import Mathlib

/-!
Shallow embedding of the EliasDB REST API v1 graph endpoint
(src/devt.de/eliasdb/api/v1/graph.go): `HandleGET` (node lists with
limit/offset pagination, single-entity fetch, traversals with a stable
paired sort), and the shared mutation routine `handleGraphRequest` used
by `HandlePUT`, `HandlePOST` and `HandleDELETE`.

External collaborators of the handler (the graph manager, the iterator,
the transaction object, and the small request helpers of the api
package) are modelled explicitly: the graph manager as a record of
function fields, the iterator as the list of outcomes its successive
`Next` calls produce, the transaction as the list of staged operations,
and strategy invocations plus the commit call as an observable event
trace.
-/

namespace EliasV1

/-- An entity's attribute map (node or edge data), modelled as an
association list from attribute names to the string form of the value. -/
abbrev EntityMap := List (String × String)

/-- The node key attribute name (`data.NodeKey` in the source). -/
def NodeKey : String := "key"

/-- The node kind attribute name (`data.NodeKind` in the source). -/
def NodeKind : String := "kind"

/-- Look up an attribute in an entity map; a missing attribute prints as
Go's `fmt.Sprintf` of a `nil` map entry. -/
def attrStr (m : EntityMap) (name : String) : String :=
  match m.find? (fun p => p.1 == name) with
  | some p => p.2
  | none => "<nil>"

/-- Modelled from the spec: `checkResources` (api helper, not in src/)
validates that the number of path segments lies within the
endpoint-specific bounds; on failure the caller emits a client error. -/
def checkResources (minLen maxLen : Nat) (resources : List String) : Bool :=
  decide (minLen ≤ resources.length) && decide (resources.length ≤ maxLen)

/-- Decimal digit sequence parser used by the query parameter helper
model: `some n` exactly when the character list is a nonempty run of
decimal digits. -/
def parseDigits : List Char → Option Nat
  | [] => none
  | cs => go cs 0
where go : List Char → Nat → Option Nat
  | [], acc => some acc
  | c :: rest, acc =>
    if ('0') ≤ c ∧ c ≤ ('9') then go rest (acc * 10 + (c.toNat - ('0').toNat))
    else none

/-- Modelled from the spec: `queryParamPosNum` (api helper, not in src/)
reads an optional non-negative integer query parameter, returning `none`
when the parameter is unset (the source's `-1`) and failing with a
client error when the value does not parse as a non-negative integer. -/
def queryParamPosNum (v : Option String) : Except String (Option Nat) :=
  match v with
  | none => Except.ok none
  | some s =>
    match parseDigits s.data with
    | some n => Except.ok (some n)
    | none => Except.error ("Invalid parameter value: " ++ s)

/-- A forward-only node key iterator: the list of the outcomes of its
successive `Next` calls (`Except.error` models a `Next` call that sets
`LastError`).  `HasNext` holds exactly while the list is nonempty. -/
abbrev Iter := List (Except String String)

/-- The skip phase of the node list GET (graph.go lines 264-281): loop
`offset` times, failing if the iterator exhausts mid-skip or a `Next`
call reports an error.  Returns the remaining iterator. -/
def skipOffset : Iter → Nat → Except String Iter
  | it, 0 => Except.ok it
  | [], _ + 1 => Except.error ("Offset exceeds available nodes")
  | Except.error e :: _, _ + 1 => Except.error e
  | Except.ok _ :: rest, n + 1 => skipOffset rest n

/-- Outcome of the yield phase of the node list GET. -/
inductive YieldRes where
  | panicked
  | fail (msg : String)
  | rows (out : List EntityMap)
  deriving DecidableEq

/-- The yield phase of the node list GET (graph.go lines 291-314): while
the iterator has keys and the limit is not exhausted, take the next key,
fetch the node and collect its data.  A `none` fetch result models the
source dereferencing a nil node (`node.Data()`), which panics. -/
def yieldNodes (fetch : String → Except String (Option EntityMap)) :
    Iter → Option Nat → YieldRes
  | _, some 0 => YieldRes.rows []
  | [], _ => YieldRes.rows []
  | Except.error e :: _, _ => YieldRes.fail e
  | Except.ok k :: rest, lim =>
    match fetch k with
    | Except.error e => YieldRes.fail e
    | Except.ok none => YieldRes.panicked
    | Except.ok (some nd) =>
      match yieldNodes fetch rest (lim.map (· - 1)) with
      | YieldRes.rows out => YieldRes.rows (nd :: out)
      | other => other

/-- The graph manager collaborator (`api.GM`): the capabilities consumed
by the graph endpoint, as function fields.  `nodeKeyIterator` and the
fetches return `Except.ok none` when the source returns a nil value
without an error. -/
structure GraphManager where
  nodeKeyIterator : String → String → Except String (Option Iter)
  fetchNode : String → String → String → Except String (Option EntityMap)
  fetchEdge : String → String → String → Except String (Option EntityMap)
  fetchNodePart :
    String → String → String → List String → Except String (Option EntityMap)
  nodeCount : String → Nat
  traverseMulti :
    String → String → String → String → Bool →
      Except String (Option (List EntityMap) × Option (List EntityMap))

/-- Result of a GET request: the HTTP error class or the encoded body;
`okList` carries the X-Total-Count header value. -/
inductive GetResult where
  | badRequest (msg : String)
  | serverError (msg : String)
  | panicked
  | okList (totalCount : Nat) (body : List EntityMap)
  | okSingle (body : EntityMap)
  | okTraversal (nodes edges : List EntityMap)
  deriving DecidableEq

/-- The node list branch of `HandleGET` (graph.go lines 233-330, three
path segments, entity type n): read the limit and offset parameters, get
the key iterator, skip, yield, and answer with the list plus the
X-Total-Count header obtained from the kind-only count capability. -/
def handleNodeList (gm : GraphManager) (part kind : String)
    (limitP offsetP : Option String) : GetResult :=
  match queryParamPosNum limitP with
  | Except.error e => GetResult.badRequest e
  | Except.ok limit? =>
    match queryParamPosNum offsetP with
    | Except.error e => GetResult.badRequest e
    | Except.ok offset? =>
      match gm.nodeKeyIterator part kind with
      | Except.error e => GetResult.serverError e
      | Except.ok none => GetResult.badRequest ("Unknown partition or node kind")
      | Except.ok (some it) =>
        match skipOffset it (offset?.getD 0) with
        | Except.error e => GetResult.serverError e
        | Except.ok it' =>
          match yieldNodes (fun k => gm.fetchNode part k kind) it' limit? with
          | YieldRes.fail e => GetResult.serverError e
          | YieldRes.panicked => GetResult.panicked
          | YieldRes.rows out => GetResult.okList (gm.nodeCount kind) out

/-- The single node branch of `HandleGET` (graph.go lines 338-350, four
path segments, entity type n). -/
def handleSingleNode (gm : GraphManager) (part kind key : String) : GetResult :=
  match gm.fetchNode part key kind with
  | Except.error e => GetResult.serverError e
  | Except.ok none => GetResult.badRequest ("Unknown partition or node kind")
  | Except.ok (some nd) => GetResult.okSingle nd

/-- The single edge branch of `HandleGET` (graph.go lines 352-365, four
path segments, entity type e). -/
def handleSingleEdge (gm : GraphManager) (part kind key : String) : GetResult :=
  match gm.fetchEdge part key kind with
  | Except.error e => GetResult.serverError e
  | Except.ok none => GetResult.badRequest ("Unknown partition or edge kind")
  | Except.ok (some ed) => GetResult.okSingle ed

/-- One traversal result pair: the data map of a traversed node together
with the data map of the edge traversed to reach it. -/
abbrev TravPair := EntityMap × EntityMap

/-- Pairing of the two traversal result sequences (graph.go lines
396-411): when both sequences are present each node is paired with the
edge at the same index (the source indexes `edges[i]` while ranging over
`nodes`, so a shorter edge sequence panics, modelled by `none`); when
either sequence is absent both lists are treated as empty. -/
def buildTraversalData (nodes? edges? : Option (List EntityMap)) :
    Option (List TravPair) :=
  match nodes?, edges? with
  | some ns, some es =>
    if es.length < ns.length then none else some (ns.zip es)
  | _, _ => some []

/-- The sort key used by `traversalResultComparator.Less`: the string
form of the node's key attribute. -/
def pairKey (p : TravPair) : String := attrStr p.1 NodeKey

/-- The order imposed by `sort.Stable` with
`traversalResultComparator.Less` (graph.go lines 833-838): non-strict
comparison on the string form of the node key. -/
def travLe (p q : TravPair) : Prop := pairKey p ≤ pairKey q

instance : DecidableRel travLe :=
  fun p q => inferInstanceAs (Decidable (pairKey p ≤ pairKey q))

instance : IsTotal TravPair travLe := ⟨fun p q => le_total (pairKey p) (pairKey q)⟩

instance : IsTrans TravPair travLe := ⟨fun _ _ _ h h' => le_trans h h'⟩

/-- The sorting step of the traversal branch (graph.go line 415):
`sort.Stable` over `traversalResultComparator`, whose `Less` compares
node key strings and whose `Swap` exchanges the node and edge entries at
the same indices simultaneously, i.e. a stable sort of the paired
sequence by node key. -/
def travSort (l : List TravPair) : List TravPair := List.insertionSort travLe l

/-- The traversal branch of `HandleGET` (graph.go lines 374-423, five
path segments, entity type n). -/
def handleTraversal (gm : GraphManager) (part kind key spec : String) : GetResult :=
  match gm.fetchNodePart part key kind [NodeKey, NodeKind] with
  | Except.error e => GetResult.serverError e
  | Except.ok none => GetResult.badRequest ("Unknown partition or node kind")
  | Except.ok (some _) =>
    match gm.traverseMulti part key kind spec true with
    | Except.error e => GetResult.serverError e
    | Except.ok (nodes?, edges?) =>
      match buildTraversalData nodes? edges? with
      | none => GetResult.panicked
      | some pairs =>
        GetResult.okTraversal
          ((travSort pairs).map Prod.fst) ((travSort pairs).map Prod.snd)

/-- The GET handler `HandleGET` (graph.go lines 220-429): validate the path shape (3 to
5 segments, entity type n or e) and dispatch on the number of segments:
3 = node list, 4 = single entity, 5 = traversal. -/
def HandleGET (gm : GraphManager) (resources : List String)
    (limitP offsetP : Option String) : GetResult :=
  if checkResources 3 5 resources then
    let etype := resources.getD 1 ("")
    if etype = ("n") ∨ etype = ("e") then
      if resources.length = 3 then
        if etype = ("n") then
          handleNodeList gm (resources.getD 0 ("")) (resources.getD 2 (""))
            limitP offsetP
        else
          GetResult.badRequest ("Entity type must be n (nodes) when requesting all items")
      else if resources.length = 4 then
        if etype = ("n") then
          handleSingleNode gm (resources.getD 0 ("")) (resources.getD 2 (""))
            (resources.getD 3 (""))
        else
          handleSingleEdge gm (resources.getD 0 ("")) (resources.getD 2 (""))
            (resources.getD 3 (""))
      else
        if etype = ("n") then
          handleTraversal gm (resources.getD 0 ("")) (resources.getD 2 (""))
            (resources.getD 3 ("")) (resources.getD 4 (""))
        else
          GetResult.badRequest ("Entity type must be n (nodes) when requesting traversal results")
    else
      GetResult.badRequest ("Entity type must be n (nodes) or e (edges)")
  else
    GetResult.badRequest ("Need a partition, entity type (n or e) and a kind; optional key and traversal spec")

/-- Result class of a PUT/POST/DELETE request. -/
inductive MutResult where
  | badRequest (msg : String)
  | serverError (msg : String)
  | ok
  deriving DecidableEq

/-- Observable event of the batch routine: one strategy invocation per
item, and the commit call carrying the transaction passed to it. -/
inductive MutEvent (T : Type) where
  | nodeCall (item : EntityMap)
  | edgeCall (item : EntityMap)
  | commitCall (t : T)
  deriving DecidableEq

/-- The decoded request body of a mutation request: a structurally
malformed body, an object with optional `nodes`/`edges` lists (a missing
key is a nil list in the source), or a bare JSON array. -/
inductive Body where
  | malformed (msg : String)
  | graphObj (nodes? edges? : Option (List EntityMap))
  | bareList (items : List EntityMap)
  deriving DecidableEq

/-- Decoding a body as an object with node and edge lists (graph.go
lines 495-503). -/
def decodeGraphBody : Body → Except String (Option (List EntityMap) × Option (List EntityMap))
  | Body.malformed m => Except.error m
  | Body.graphObj n? e? => Except.ok (n?, e?)
  | Body.bareList _ => Except.error ("cannot decode array into object")

/-- Decoding a body as a bare list (graph.go lines 507-520). -/
def decodeListBody : Body → Except String (List EntityMap)
  | Body.malformed m => Except.error m
  | Body.graphObj _ _ => Except.error ("cannot decode object into array")
  | Body.bareList l => Except.ok l

/-- The body decoding step of `handleGraphRequest` (graph.go lines
489-521): one path segment expects the envelope object; two segments
with `n` or `e` expect a bare list assigned to the matching side; two
segments with any other entity type decode nothing (both lists stay
nil in the source). -/
def decodeFor (resources : List String) (body : Body) :
    Except String (Option (List EntityMap) × Option (List EntityMap)) :=
  if resources.length = 1 then
    match decodeGraphBody body with
    | Except.error e =>
      Except.error ("Could not decode request body as object with list of nodes and/or edges: " ++ e)
    | Except.ok r => Except.ok r
  else if resources.getD 1 ("") = ("n") then
    match decodeListBody body with
    | Except.error e =>
      Except.error ("Could not decode request body as list of nodes: " ++ e)
    | Except.ok l => Except.ok (some l, none)
  else if resources.getD 1 ("") = ("e") then
    match decodeListBody body with
    | Except.error e =>
      Except.error ("Could not decode request body as list of edges: " ++ e)
    | Except.ok l => Except.ok (none, some l)
  else
    Except.ok (none, none)

/-- The per-item application loop of `handleGraphRequest` (graph.go
lines 527-553): invoke the strategy on each item in input order,
threading the transaction, stopping at the first error; alongside the
outcome, the trace of strategy invocations made. -/
def runItems {T : Type} (f : T → String → EntityMap → Except String T)
    (mk : EntityMap → MutEvent T) (part : String) :
    T → List EntityMap → Except String T × List (MutEvent T)
  | t, [] => (Except.ok t, [])
  | t, item :: rest =>
    match f t part item with
    | Except.error e => (Except.error e, [mk item])
    | Except.ok t' =>
      let r := runItems f mk part t' rest
      (r.1, mk item :: r.2)

/-- The threaded per-item application without its trace: the staging
outcome the strategies produce on a list of items, used to express which
invocation (if any) fails first. -/
def applyItems {T : Type} (f : T → String → EntityMap → Except String T)
    (part : String) : T → List EntityMap → Except String T
  | t, [] => Except.ok t
  | t, item :: rest =>
    match f t part item with
    | Except.error e => Except.error e
    | Except.ok t' => applyItems f part t' rest

/-- The shared mutation routine `handleGraphRequest` (graph.go lines 476-561): validate the path
shape (1 or 2 segments), decode the body, create a transaction, apply
the node strategy to every node then the edge strategy to every edge
(first error answers with a client error and stops before commit), and
finally commit (a commit error answers with a server error).  The
transaction type, the fresh transaction, the commit operation and the
two strategies are parameters, as in the source. -/
def handleGraphRequest {T : Type} (newTrans : T)
    (commit : T → Except String Unit)
    (transFuncNode transFuncEdge : T → String → EntityMap → Except String T)
    (resources : List String) (body : Body) :
    MutResult × List (MutEvent T) :=
  if checkResources 1 2 resources then
    match decodeFor resources body with
    | Except.error e => (MutResult.badRequest e, [])
    | Except.ok (nData?, eData?) =>
      let part := resources.getD 0 ("")
      let rn := runItems transFuncNode MutEvent.nodeCall part newTrans (nData?.getD [])
      match rn.1 with
      | Except.error e => (MutResult.badRequest e, rn.2)
      | Except.ok t1 =>
        let re := runItems transFuncEdge MutEvent.edgeCall part t1 (eData?.getD [])
        match re.1 with
        | Except.error e => (MutResult.badRequest e, rn.2 ++ re.2)
        | Except.ok t2 =>
          match commit t2 with
          | Except.error e =>
            (MutResult.serverError e, rn.2 ++ re.2 ++ [MutEvent.commitCall t2])
          | Except.ok _ =>
            (MutResult.ok, rn.2 ++ re.2 ++ [MutEvent.commitCall t2])
  else
    (MutResult.badRequest ("Need a partition; optional entity type (n or e)"), [])

/-- A staged transaction operation (the `graph.Trans` methods invoked by
the three verb handlers). -/
inductive TransOp where
  | updateNode (part : String) (node : EntityMap)
  | storeNode (part : String) (node : EntityMap)
  | removeNode (part key kind : String)
  | storeEdge (part : String) (edge : EntityMap)
  | removeEdge (part key kind : String)
  deriving DecidableEq

/-- A transaction, modelled as its list of staged operations in staging
order. -/
abbrev GraphTrans := List TransOp

/-- Modelled from the spec: `trans.UpdateNode` (graph package, not in
src/) stages a merge of the given node's attributes into the existing
node; staging is recorded symbolically. -/
def transUpdateNode (t : GraphTrans) (part : String) (node : EntityMap) :
    Except String GraphTrans :=
  Except.ok (t ++ [TransOp.updateNode part node])

/-- Modelled from the spec: `trans.StoreNode` (graph package, not in
src/) stages a replace-or-create of the given node. -/
def transStoreNode (t : GraphTrans) (part : String) (node : EntityMap) :
    Except String GraphTrans :=
  Except.ok (t ++ [TransOp.storeNode part node])

/-- Modelled from the spec: `trans.RemoveNode` (graph package, not in
src/) stages a removal identified only by the node's key and kind, as in
the source call `trans.RemoveNode(part, node.Key(), node.Kind())`. -/
def transRemoveNode (t : GraphTrans) (part : String) (node : EntityMap) :
    Except String GraphTrans :=
  Except.ok (t ++ [TransOp.removeNode part (attrStr node NodeKey) (attrStr node NodeKind)])

/-- Modelled from the spec: `trans.StoreEdge` (graph package, not in
src/) stages a replace-or-create of the given edge. -/
def transStoreEdge (t : GraphTrans) (part : String) (edge : EntityMap) :
    Except String GraphTrans :=
  Except.ok (t ++ [TransOp.storeEdge part edge])

/-- Modelled from the spec: `trans.RemoveEdge` (graph package, not in
src/) stages a removal identified only by the edge's key and kind, as in
the source call `trans.RemoveEdge(part, edge.Key(), edge.Kind())`. -/
def transRemoveEdge (t : GraphTrans) (part : String) (edge : EntityMap) :
    Except String GraphTrans :=
  Except.ok (t ++ [TransOp.removeEdge part (attrStr edge NodeKey) (attrStr edge NodeKind)])

/-- Modelled from the spec: `trans.Commit` (graph package, not in src/)
applies the staged operations; its failure conditions are external, so
the canonical instantiation commits successfully. -/
def transCommit (_ : GraphTrans) : Except String Unit := Except.ok ()

/-- The PUT handler (graph.go lines 436-444): the shared batch routine with
`UpdateNode` as node strategy and `StoreEdge` as edge strategy. -/
def HandlePUT (resources : List String) (body : Body) :
    MutResult × List (MutEvent GraphTrans) :=
  handleGraphRequest [] transCommit transUpdateNode transStoreEdge resources body

/-- The POST handler (graph.go lines 450-458): the shared batch routine with
`StoreNode` as node strategy and `StoreEdge` as edge strategy. -/
def HandlePOST (resources : List String) (body : Body) :
    MutResult × List (MutEvent GraphTrans) :=
  handleGraphRequest [] transCommit transStoreNode transStoreEdge resources body

/-- The DELETE handler (graph.go lines 463-471): the shared batch routine
with `RemoveNode` as node strategy and `RemoveEdge` as edge strategy. -/
def HandleDELETE (resources : List String) (body : Body) :
    MutResult × List (MutEvent GraphTrans) :=
  handleGraphRequest [] transCommit transRemoveNode transRemoveEdge resources body

/-- The node and edge strategy invocations a decoded batch gives rise
to, in application order: one node call per node, then one edge call per
edge (a `none` list decodes to the source's nil slice, which is
skipped). -/
def allMutCalls (T : Type) (n? e? : Option (List EntityMap)) : List (MutEvent T) :=
  (n?.getD []).map MutEvent.nodeCall ++ (e?.getD []).map MutEvent.edgeCall

/-- A concrete three-key fault-free iterator, for instantiating the
pagination theorems. -/
def itA : Iter := [Except.ok ("a"), Except.ok ("b"), Except.ok ("c")]

/-- A concrete graph manager for instantiating the handler theorems:
three nodes per kind-scoped iterator, every fetch succeeds, seven nodes
per kind, and a two-step traversal whose nodes arrive in descending key
order. -/
def gmA : GraphManager where
  nodeKeyIterator := fun _ _ => Except.ok (some itA)
  fetchNode := fun _ k _ => Except.ok (some [(NodeKey, k)])
  fetchEdge := fun _ _ _ => Except.ok none
  fetchNodePart := fun _ _ _ _ => Except.ok (some [(NodeKey, ("x"))])
  nodeCount := fun _ => 7
  traverseMulti := fun _ _ _ _ _ =>
    Except.ok (some [[(NodeKey, ("b"))], [(NodeKey, ("a"))]],
      some [[(NodeKey, ("eb"))], [(NodeKey, ("ea"))]])

/-- A concrete graph manager whose fetches report no error but return no
entity (the source's nil result for an unknown partition or kind). -/
def gmNil : GraphManager where
  nodeKeyIterator := fun _ _ => Except.ok none
  fetchNode := fun _ _ _ => Except.ok none
  fetchEdge := fun _ _ _ => Except.ok none
  fetchNodePart := fun _ _ _ _ => Except.ok none
  nodeCount := fun _ => 0
  traverseMulti := fun _ _ _ _ _ => Except.ok (none, none)

/-- The rows `gmA` yields for an unbounded kind-scoped list request. -/
def rowsAllA : List EntityMap := [[(NodeKey, ("a"))], [(NodeKey, ("b"))], [(NodeKey, ("c"))]]

/-- The rows `gmA` yields for limit 2 and offset 1. -/
def rowsMidA : List EntityMap := [[(NodeKey, ("b"))], [(NodeKey, ("c"))]]

/-- The traversal pairs `gmA` produces, in pre-sort order. -/
def pairsA : List TravPair :=
  [([(NodeKey, ("b"))], [(NodeKey, ("eb"))]), ([(NodeKey, ("a"))], [(NodeKey, ("ea"))])]

/-- A node strategy that rejects an item with an empty attribute map and
stages a store otherwise, for exercising the fail-fast path. -/
def failOnEmpty : GraphTrans → String → EntityMap → Except String GraphTrans :=
  fun t p m =>
    if m.isEmpty then Except.error ("bad item")
    else Except.ok (t ++ [TransOp.storeNode p m])

/-- A concrete envelope body whose second node item is empty (rejected
by `failOnEmpty`) and which carries one edge. -/
def bodyFail : Body :=
  Body.graphObj (some [[(NodeKey, ("1"))], []]) (some [[(NodeKey, ("9"))]])

/-! Lemmas about the pagination phases and the GET dispatcher. -/

/-- An iterator entry that is a plain key (no `LastError`). -/
def keyOk : Except String String → Bool
  | Except.error _ => false
  | Except.ok _ => true

/-- An iterator entry whose key both exists and resolves through the
given fetch capability to a present node. -/
def goodKey (fetch : String → Except String (Option EntityMap)) :
    Except String String → Bool
  | Except.error _ => false
  | Except.ok k =>
    match fetch k with
    | Except.ok (some _) => true
    | _ => false

theorem keyOk_of_goodKey {fetch x} (h : goodKey fetch x = true) : keyOk x = true := by
  cases x with
  | error e => simp [goodKey] at h
  | ok k => rfl

/-- On a fault-free iterator the skip phase consumes exactly
`min offset population` entries: within the population it succeeds with
the iterator advanced by `offset`; beyond it, the iterator exhausts
mid-skip and the phase fails. -/
theorem skipOffset_eq (it : Iter) (off : Nat)
    (hfree : ∀ x ∈ it, keyOk x = true) :
    skipOffset it off =
      if off ≤ it.length then Except.ok (it.drop off)
      else Except.error ("Offset exceeds available nodes") := by
  induction it generalizing off with
  | nil =>
    cases off with
    | zero => simp [skipOffset]
    | succ n => simp [skipOffset]
  | cons x rest ih =>
    cases off with
    | zero => simp [skipOffset]
    | succ n =>
      have hx : keyOk x = true := hfree x (List.mem_cons_self x rest)
      cases x with
      | error e => simp [keyOk] at hx
      | ok k =>
        have hrec := ih n (fun y hy => hfree y (List.mem_cons_of_mem _ hy))
        simp only [skipOffset, hrec, List.length_cons, List.drop_succ_cons,
          Nat.succ_le_succ_iff]

/-- On an iterator all of whose entries are good keys, the yield phase
emits exactly `min limit population` rows (all of the population when the
limit is unset). -/
theorem yieldNodes_eq (fetch : String → Except String (Option EntityMap))
    (it : Iter) (lim : Option Nat)
    (hgood : ∀ x ∈ it, goodKey fetch x = true) :
    ∃ out : List EntityMap, yieldNodes fetch it lim = YieldRes.rows out ∧
      out.length =
        (match lim with
         | none => it.length
         | some L => min L it.length) := by
  induction it generalizing lim with
  | nil =>
    cases lim with
    | none => exact ⟨[], rfl, rfl⟩
    | some L => exact ⟨[], by cases L <;> simp [yieldNodes], by simp⟩
  | cons x rest ih =>
    have hx : goodKey fetch x = true := hgood x (List.mem_cons_self x rest)
    cases x with
    | error e => simp [goodKey] at hx
    | ok k =>
      cases hf : fetch k with
      | error e => simp [goodKey, hf] at hx
      | ok o =>
        cases o with
        | none => simp [goodKey, hf] at hx
        | some nd =>
          cases lim with
          | none =>
            obtain ⟨out, ho, hl⟩ :=
              ih none (fun y hy => hgood y (List.mem_cons_of_mem _ hy))
            exact ⟨nd :: out, by simp [yieldNodes, hf, ho], by simp [hl]⟩
          | some L =>
            cases L with
            | zero => exact ⟨[], by simp [yieldNodes], by simp⟩
            | succ L' =>
              obtain ⟨out, ho, hl⟩ :=
                ih (some L') (fun y hy => hgood y (List.mem_cons_of_mem _ hy))
              refine ⟨nd :: out, by simp [yieldNodes, hf, ho], ?_⟩
              simp [hl, Nat.succ_min_succ]

/-- Three path segments with entity type n reach the node list branch. -/
theorem handleGET_three (gm : GraphManager) (part kind : String)
    (limitP offsetP : Option String) :
    HandleGET gm [part, ("n"), kind] limitP offsetP =
      handleNodeList gm part kind limitP offsetP := by
  simp [HandleGET, checkResources, List.getD]

/-- Four path segments with entity type n reach the single node branch. -/
theorem handleGET_four (gm : GraphManager) (part kind key : String)
    (limitP offsetP : Option String) :
    HandleGET gm [part, ("n"), kind, key] limitP offsetP =
      handleSingleNode gm part kind key := by
  simp [HandleGET, checkResources, List.getD]

/-- Four path segments with entity type e reach the single edge branch. -/
theorem handleGET_four_e (gm : GraphManager) (part kind key : String)
    (limitP offsetP : Option String) :
    HandleGET gm [part, ("e"), kind, key] limitP offsetP =
      handleSingleEdge gm part kind key := by
  simp [HandleGET, checkResources, List.getD]

/-- Five path segments with entity type n reach the traversal branch. -/
theorem handleGET_five (gm : GraphManager) (part kind key spec : String)
    (limitP offsetP : Option String) :
    HandleGET gm [part, ("n"), kind, key, spec] limitP offsetP =
      handleTraversal gm part kind key spec := by
  simp [HandleGET, checkResources, List.getD]

/-- Whenever the node list branch answers successfully, the value of the
X-Total-Count header is the kind-only node count of the graph manager. -/
theorem handleNodeList_okList {gm : GraphManager} {part kind : String}
    {limitP offsetP : Option String} {c : Nat} {rows : List EntityMap}
    (h : handleNodeList gm part kind limitP offsetP = GetResult.okList c rows) :
    c = gm.nodeCount kind := by
  unfold handleNodeList at h
  repeat' split at h
  all_goals simp_all

/-! Lemmas about the traversal sort. -/

/-- The sorted traversal pairs are a permutation of the input pairs. -/
theorem travSort_perm (l : List TravPair) : List.Perm (travSort l) l :=
  List.perm_insertionSort travLe l

/-- The sorted traversal pairs are in ascending node key order. -/
theorem travSort_sorted (l : List TravPair) : List.Sorted travLe (travSort l) :=
  List.sorted_insertionSort travLe l

/-- Inserting one pair into a list commutes with restricting to a fixed
node key: the inserted pair lands in front of every pair of its own key,
and pairs of other keys are untouched. -/
theorem filter_travOrderedInsert (a : TravPair) (k : String) (l : List TravPair) :
    (List.orderedInsert travLe a l).filter (fun p => decide (pairKey p = k)) =
      if pairKey a = k then
        a :: l.filter (fun p => decide (pairKey p = k))
      else l.filter (fun p => decide (pairKey p = k)) := by
  induction l with
  | nil =>
    by_cases hk : pairKey a = k <;> simp [List.orderedInsert, List.filter_cons, hk]
  | cons q rest ih =>
    by_cases hle : travLe a q
    · rw [List.orderedInsert, if_pos hle]
      by_cases hk : pairKey a = k <;> simp [List.filter_cons, hk]
    · rw [List.orderedInsert, if_neg hle]
      have hlt : pairKey q < pairKey a := not_le.mp hle
      by_cases hk : pairKey a = k
      · have hqk : ¬ pairKey q = k := by rw [← hk]; exact ne_of_lt hlt
        simp [List.filter_cons, hqk, hk, ih]
      · simp [List.filter_cons, hk, ih]

/-- Stability of the traversal sort: for every node key, the subsequence
of pairs carrying that key is exactly the same, in the same order,
before and after sorting. -/
theorem travSort_filter (k : String) (l : List TravPair) :
    (travSort l).filter (fun p => decide (pairKey p = k)) =
      l.filter (fun p => decide (pairKey p = k)) := by
  induction l with
  | nil => rfl
  | cons a rest ih =>
    have step :
        travSort (a :: rest) =
          List.orderedInsert travLe a (travSort rest) := rfl
    rw [step, filter_travOrderedInsert]
    by_cases hk : pairKey a = k <;> simp [List.filter_cons, hk, ih]

/-! Lemmas about the batch application loop. -/

/-- The per-item loop either applies the strategy to every item in input
order, or stops at the first failing item, having invoked the strategy
on exactly the items up to and including it. -/
theorem runItems_spec {T : Type} (f : T → String → EntityMap → Except String T)
    (mk : EntityMap → MutEvent T) (part : String) (items : List EntityMap)
    (t : T) :
    (∃ t', runItems f mk part t items = (Except.ok t', items.map mk)) ∨
    (∃ msg n, 1 ≤ n ∧ n ≤ items.length ∧
      runItems f mk part t items = (Except.error msg, (items.take n).map mk)) := by
  induction items generalizing t with
  | nil => exact Or.inl ⟨t, rfl⟩
  | cons item rest ih =>
    cases hf : f t part item with
    | error e =>
      refine Or.inr ⟨e, 1, le_refl 1, Nat.succ_le_succ (Nat.zero_le _), ?_⟩
      simp [runItems, hf]
    | ok t' =>
      rcases ih t' with ⟨t'', hr⟩ | ⟨msg, n, hn1, hn2, hr⟩
      · exact Or.inl ⟨t'', by simp [runItems, hf, hr]⟩
      · refine Or.inr ⟨msg, n + 1, Nat.le_add_left 1 n, Nat.succ_le_succ hn2, ?_⟩
        simp [runItems, hf, hr]

/-- The staging outcome of the traced loop is the trace-free threaded
application. -/
theorem runItems_fst {T : Type} (f : T → String → EntityMap → Except String T)
    (mk : EntityMap → MutEvent T) (part : String) (items : List EntityMap)
    (t : T) :
    (runItems f mk part t items).1 = applyItems f part t items := by
  induction items generalizing t with
  | nil => rfl
  | cons item rest ih =>
    cases hf : f t part item with
    | error e => simp [runItems, applyItems, hf]
    | ok t' => simp [runItems, applyItems, hf, ih]

/-- When the threaded application of the strategy succeeds over the
whole item list, the loop invokes the strategy once per item in input
order and returns the final transaction. -/
theorem runItems_of_apply_ok {T : Type} (f : T → String → EntityMap → Except String T)
    (mk : EntityMap → MutEvent T) (part : String) (items : List EntityMap)
    (t t' : T) (h : applyItems f part t items = Except.ok t') :
    runItems f mk part t items = (Except.ok t', items.map mk) := by
  induction items generalizing t with
  | nil =>
    simp [applyItems] at h
    simp [runItems, h]
  | cons item rest ih =>
    cases hf : f t part item with
    | error e => simp [applyItems, hf] at h
    | ok t'' =>
      simp only [applyItems, hf] at h
      simp [runItems, hf, ih t'' h]

/-- When the strategy succeeds on the first k items (producing `tk`) and
fails on the (k+1)-th item, the loop stops exactly there: it reports
that item's error and its trace is one invocation per item up to and
including the failing one. -/
theorem runItems_of_apply_fail {T : Type} (f : T → String → EntityMap → Except String T)
    (mk : EntityMap → MutEvent T) (part : String) (items : List EntityMap)
    (k : Nat) (t tk : T) (item : EntityMap) (msg : String)
    (hpre : applyItems f part t (items.take k) = Except.ok tk)
    (hitem : items[k]? = some item)
    (hfail : f tk part item = Except.error msg) :
    runItems f mk part t items = (Except.error msg, (items.take (k + 1)).map mk) := by
  induction items generalizing k t with
  | nil => simp at hitem
  | cons x rest ih =>
    cases k with
    | zero =>
      have ht : t = tk := by simpa [applyItems] using hpre
      have hx : x = item := by simpa using hitem
      subst ht
      subst hx
      simp [runItems, hfail]
    | succ n =>
      rw [List.take_succ_cons] at hpre
      cases hf : f t part x with
      | error e => simp [applyItems, hf] at hpre
      | ok t'' =>
        simp only [applyItems, hf] at hpre
        have hitem' : rest[n]? = some item := by simpa using hitem
        have hrec := ih n t'' hpre hitem'
        simp [runItems, hf, hrec, List.take_succ_cons]

/-- The per-item loop under a strategy that always stages one operation:
every item is applied, the staged operations are appended in input
order, and the trace records one invocation per item. -/
theorem runItems_append (g : String → EntityMap → TransOp)
    (f : GraphTrans → String → EntityMap → Except String GraphTrans)
    (hf : ∀ t p m, f t p m = Except.ok (t ++ [g p m]))
    (mk : EntityMap → MutEvent GraphTrans) (part : String)
    (items : List EntityMap) (t : GraphTrans) :
    runItems f mk part t items =
      (Except.ok (t ++ items.map (g part)), items.map mk) := by
  induction items generalizing t with
  | nil => simp [runItems]
  | cons item rest ih => simp [runItems, hf, ih]

/-- Full success characterization of the node list GET: with a present
fault-free iterator whose keys all resolve, well-formed parameters and
an in-range offset, the request succeeds with the kind-only node count
as header and exactly `min limit (population - offset)` rows. -/
theorem nodeList_spec (gm : GraphManager) (part kind : String)
    (limitP offsetP : Option String) (it : Iter) (limit? offset? : Option Nat)
    (hit : gm.nodeKeyIterator part kind = Except.ok (some it))
    (hgood : ∀ x ∈ it, goodKey (fun k => gm.fetchNode part k kind) x = true)
    (hlim : queryParamPosNum limitP = Except.ok limit?)
    (hoff : queryParamPosNum offsetP = Except.ok offset?)
    (hle : offset?.getD 0 ≤ it.length) :
    ∃ rows, HandleGET gm [part, ("n"), kind] limitP offsetP =
        GetResult.okList (gm.nodeCount kind) rows
      ∧ rows.length =
          (match limit? with
           | some L => min L (it.length - offset?.getD 0)
           | none => it.length - offset?.getD 0)
      ∧ (∀ L, limit? = some L → rows.length ≤ L) := by
  have hfree : ∀ x ∈ it, keyOk x = true := fun x hx => keyOk_of_goodKey (hgood x hx)
  have hs := skipOffset_eq it (offset?.getD 0) hfree
  rw [if_pos hle] at hs
  have hgood' : ∀ x ∈ it.drop (offset?.getD 0),
      goodKey (fun k => gm.fetchNode part k kind) x = true :=
    fun x hx => hgood x (List.mem_of_mem_drop hx)
  obtain ⟨out, ho, hlen⟩ :=
    yieldNodes_eq (fun k => gm.fetchNode part k kind) (it.drop (offset?.getD 0))
      limit? hgood'
  refine ⟨out, ?_, ?_, ?_⟩
  · rw [handleGET_three]
    simp [handleNodeList, hlim, hoff, hit, hs, ho]
  · rw [hlen]
    cases limit? <;> simp [List.length_drop]
  · intro L hL
    rw [hlen, hL]
    simp [List.length_drop]

/-- C3: for a node-list GET with offset O over a fault-free iterator of
population P, the skip phase consumes exactly min(O,P) keys — succeeding
with the iterator advanced by O when O ≤ P, so yielding starts at the
(O+1)-th key — while O > P fails the whole request with a server error
and no rows; an unset offset behaves exactly as offset 0. -/
theorem c3_offset_skip (gm : GraphManager) (part kind : String)
    (limitP offsetP : Option String) (it : Iter) (limit? offset? : Option Nat)
    (hit : gm.nodeKeyIterator part kind = Except.ok (some it))
    (hfree : ∀ x ∈ it, keyOk x = true)
    (hlim : queryParamPosNum limitP = Except.ok limit?)
    (hoff : queryParamPosNum offsetP = Except.ok offset?) :
    (skipOffset it (offset?.getD 0) =
      if offset?.getD 0 ≤ it.length then Except.ok (it.drop (offset?.getD 0))
      else Except.error ("Offset exceeds available nodes"))
    ∧ (it.length < offset?.getD 0 →
        HandleGET gm [part, ("n"), kind] limitP offsetP =
          GetResult.serverError ("Offset exceeds available nodes"))
    ∧ HandleGET gm [part, ("n"), kind] limitP none =
        HandleGET gm [part, ("n"), kind] limitP (some ("0")) := by
  refine ⟨skipOffset_eq it _ hfree, ?_, ?_⟩
  · intro hgt
    have hs := skipOffset_eq it (offset?.getD 0) hfree
    rw [if_neg (not_le.mpr hgt)] at hs
    rw [handleGET_three]
    simp [handleNodeList, hlim, hoff, hit, hs]
  · have h0 : queryParamPosNum none = Except.ok (none : Option Nat) := rfl
    have h0' : queryParamPosNum (some ("0")) = Except.ok (some 0) := rfl
    rw [handleGET_three, handleGET_three]
    simp [handleNodeList, hlim, h0, h0']

/-- Witness for C3 at `gmA` with both parameters unset. -/
theorem c3_offset_skip_witness :
    (∀ x ∈ itA, keyOk x = true) ∧
    HandleGET gmA [("p"), ("n"), ("k")] none none =
      HandleGET gmA [("p"), ("n"), ("k")] none (some ("0")) :=
  ⟨by decide,
    (c3_offset_skip gmA ("p") ("k") none none itA none none rfl (by decide)
      rfl rfl).2.2⟩

/-- C4: for a node-list GET whose skip phase succeeded over population P
with offset O, exactly min(L, P − O) rows are emitted under limit L (in
particular never more than L), and all P − O remaining rows when the
limit is unset. -/
theorem c4_limit_bound (gm : GraphManager) (part kind : String)
    (limitP offsetP : Option String) (it : Iter) (limit? offset? : Option Nat)
    (hit : gm.nodeKeyIterator part kind = Except.ok (some it))
    (hgood : ∀ x ∈ it, goodKey (fun k => gm.fetchNode part k kind) x = true)
    (hlim : queryParamPosNum limitP = Except.ok limit?)
    (hoff : queryParamPosNum offsetP = Except.ok offset?)
    (hle : offset?.getD 0 ≤ it.length) :
    ∃ rows, HandleGET gm [part, ("n"), kind] limitP offsetP =
        GetResult.okList (gm.nodeCount kind) rows
      ∧ rows.length =
          (match limit? with
           | some L => min L (it.length - offset?.getD 0)
           | none => it.length - offset?.getD 0)
      ∧ (∀ L, limit? = some L → rows.length ≤ L) :=
  nodeList_spec gm part kind limitP offsetP it limit? offset? hit hgood hlim hoff hle

/-- Witness for C4 at `gmA` with limit 2 and offset 1. -/
theorem c4_limit_bound_witness :
    (∀ x ∈ itA, goodKey (fun k => gmA.fetchNode ("p") k ("k")) x = true) ∧
    ∃ rows, HandleGET gmA [("p"), ("n"), ("k")] (some ("2")) (some ("1")) =
        GetResult.okList (gmA.nodeCount ("k")) rows ∧ rows.length = 2 := by
  refine ⟨by decide, ?_⟩
  obtain ⟨rows, h1, h2, h3⟩ :=
    c4_limit_bound gmA ("p") ("k") (some ("2")) (some ("1")) itA (some 2) (some 1)
      rfl (by decide) rfl rfl (by decide)
  exact ⟨rows, h1, h2⟩

/-- C8: the X-Total-Count header of any successful node-list GET equals
the value of the kind-only count capability, hence two successful list
requests over the same data differing only in limit and offset report
the same total count. -/
theorem c8_total_count_header (gm : GraphManager) (part kind : String)
    (lP1 oP1 lP2 oP2 : Option String) (c1 c2 : Nat)
    (rows1 rows2 : List EntityMap)
    (h1 : HandleGET gm [part, ("n"), kind] lP1 oP1 = GetResult.okList c1 rows1)
    (h2 : HandleGET gm [part, ("n"), kind] lP2 oP2 = GetResult.okList c2 rows2) :
    c1 = gm.nodeCount kind ∧ c2 = gm.nodeCount kind ∧ c1 = c2 := by
  rw [handleGET_three] at h1 h2
  have e1 := handleNodeList_okList h1
  have e2 := handleNodeList_okList h2
  exact ⟨e1, e2, e1.trans e2.symm⟩

/-- Witness for C8 at `gmA`: an unbounded request and a limit-2/offset-1
request both carry total count 7. -/
theorem c8_total_count_header_witness :
    HandleGET gmA [("p"), ("n"), ("k")] none none = GetResult.okList 7 rowsAllA ∧
    HandleGET gmA [("p"), ("n"), ("k")] (some ("2")) (some ("1")) =
      GetResult.okList 7 rowsMidA ∧
    7 = gmA.nodeCount ("k") := by
  have h1 : HandleGET gmA [("p"), ("n"), ("k")] none none =
      GetResult.okList 7 rowsAllA := rfl
  have h2 : HandleGET gmA [("p"), ("n"), ("k")] (some ("2")) (some ("1")) =
      GetResult.okList 7 rowsMidA := rfl
  exact ⟨h1, h2,
    (c8_total_count_header gmA ("p") ("k") none none (some ("2")) (some ("1"))
      7 7 rowsAllA rowsMidA h1 h2).1⟩

/-- C10: the total-count header of a node-list GET is computed from the
kind segment alone through the kind-only count capability, so two
successful list requests differing only in the partition segment report
the same total count. -/
theorem c10_count_partition_independent (gm : GraphManager) (p1 p2 kind : String)
    (lP oP : Option String) (c1 c2 : Nat) (r1 r2 : List EntityMap)
    (h1 : HandleGET gm [p1, ("n"), kind] lP oP = GetResult.okList c1 r1)
    (h2 : HandleGET gm [p2, ("n"), kind] lP oP = GetResult.okList c2 r2) :
    c1 = c2 ∧ c1 = gm.nodeCount kind := by
  rw [handleGET_three] at h1 h2
  have e1 := handleNodeList_okList h1
  have e2 := handleNodeList_okList h2
  exact ⟨e1.trans e2.symm, e1⟩

/-- Witness for C10 at `gmA`: two partitions, same kind, same count. -/
theorem c10_count_partition_independent_witness :
    HandleGET gmA [("p1"), ("n"), ("k")] none none = GetResult.okList 7 rowsAllA ∧
    HandleGET gmA [("p2"), ("n"), ("k")] none none = GetResult.okList 7 rowsAllA ∧
    (7 : Nat) = 7 := by
  have h1 : HandleGET gmA [("p1"), ("n"), ("k")] none none =
      GetResult.okList 7 rowsAllA := rfl
  have h2 : HandleGET gmA [("p2"), ("n"), ("k")] none none =
      GetResult.okList 7 rowsAllA := rfl
  exact ⟨h1, h2,
    (c10_count_partition_independent gmA ("p1") ("p2") ("k") none none 7 7
      rowsAllA rowsAllA h1 h2).1⟩

/-- C7 counterexample: a 2-segment GET `/graph/{partition}/{n|e}` is not
accepted as a list request — the handler requires at least 3 path
segments and rejects it with a client error — and a 3-segment GET with
entity type e is rejected as well, so only the n shape lists. -/
theorem c7_list_shapes_counterexample :
    HandleGET gmA [("p"), ("n")] none none =
      GetResult.badRequest ("Need a partition, entity type (n or e) and a kind; optional key and traversal spec")
    ∧ HandleGET gmA [("p"), ("e"), ("k")] none none =
      GetResult.badRequest ("Entity type must be n (nodes) when requesting all items") :=
  ⟨rfl, rfl⟩

/-- C7 (amended): 2-segment GETs are rejected with a client error
whatever the entity type, 3-segment GETs with entity type e are rejected
with a client error, and only `GET /graph/{partition}/n/{kind}` is
accepted as a list request, answered with a JSON array plus the
total-count header. -/
theorem c7_list_shapes (gm : GraphManager) (part etype kind : String)
    (lP oP : Option String) :
    (HandleGET gm [part, etype] lP oP =
      GetResult.badRequest ("Need a partition, entity type (n or e) and a kind; optional key and traversal spec"))
    ∧ (HandleGET gm [part, ("e"), kind] lP oP =
      GetResult.badRequest ("Entity type must be n (nodes) when requesting all items"))
    ∧ (∀ it limit? offset?,
        gm.nodeKeyIterator part kind = Except.ok (some it) →
        (∀ x ∈ it, goodKey (fun k => gm.fetchNode part k kind) x = true) →
        queryParamPosNum lP = Except.ok limit? →
        queryParamPosNum oP = Except.ok offset? →
        offset?.getD 0 ≤ it.length →
        ∃ rows, HandleGET gm [part, ("n"), kind] lP oP =
          GetResult.okList (gm.nodeCount kind) rows) := by
  refine ⟨?_, ?_, ?_⟩
  · simp [HandleGET, checkResources]
  · simp [HandleGET, checkResources, List.getD]
  · intro it limit? offset? hit hgood hlim hoff hle
    obtain ⟨rows, h1, h2, h3⟩ :=
      nodeList_spec gm part kind lP oP it limit? offset? hit hgood hlim hoff hle
    exact ⟨rows, h1⟩

/-- Witness for C7 (amended) at `gmA`. -/
theorem c7_list_shapes_witness :
    HandleGET gmA [("p"), ("x")] none none =
      GetResult.badRequest ("Need a partition, entity type (n or e) and a kind; optional key and traversal spec")
    ∧ ∃ rows, HandleGET gmA [("p"), ("n"), ("k")] none none =
        GetResult.okList (gmA.nodeCount ("k")) rows := by
  refine ⟨(c7_list_shapes gmA ("p") ("x") ("k") none none).1, ?_⟩
  exact (c7_list_shapes gmA ("p") ("x") ("k") none none).2.2 itA none none rfl
    (by decide) rfl rfl (by decide)

/-- C9 counterexample: a single-entity GET whose fetch reports no error
but returns no entity answers with a client error (bad request), not a
server error as the claim states. -/
theorem c9_nil_fetch_counterexample :
    HandleGET gmNil [("p"), ("n"), ("k"), ("key1")] none none =
      GetResult.badRequest ("Unknown partition or node kind")
    ∧ ∀ msg, HandleGET gmNil [("p"), ("n"), ("k"), ("key1")] none none ≠
        GetResult.serverError msg := by
  refine ⟨rfl, fun msg h => ?_⟩
  rw [show HandleGET gmNil [("p"), ("n"), ("k"), ("key1")] none none =
      GetResult.badRequest ("Unknown partition or node kind") from rfl] at h
  exact absurd h (by simp)

/-- C9 (amended): on every single-entity GET where the fetch capability
reports no error but returns no entity, the handler responds with the
client-error class (bad request), for nodes and edges alike. -/
theorem c9_nil_fetch_client_error (gm : GraphManager) (part kind key : String)
    (lP oP : Option String) :
    (gm.fetchNode part key kind = Except.ok none →
      HandleGET gm [part, ("n"), kind, key] lP oP =
        GetResult.badRequest ("Unknown partition or node kind"))
    ∧ (gm.fetchEdge part key kind = Except.ok none →
      HandleGET gm [part, ("e"), kind, key] lP oP =
        GetResult.badRequest ("Unknown partition or edge kind")) := by
  constructor
  · intro h
    rw [handleGET_four]
    simp [handleSingleNode, h]
  · intro h
    rw [handleGET_four_e]
    simp [handleSingleEdge, h]

/-- Witness for C9 (amended) at `gmNil`. -/
theorem c9_nil_fetch_client_error_witness :
    gmNil.fetchNode ("p") ("key1") ("k") = Except.ok none ∧
    HandleGET gmNil [("p"), ("n"), ("k"), ("key1")] none none =
      GetResult.badRequest ("Unknown partition or node kind") :=
  ⟨rfl, (c9_nil_fetch_client_error gmNil ("p") ("k") ("key1") none none).1 rfl⟩

/-- C2: the traversal branch applies one and the same permutation to the
node and the edge sequence — its output is the projection of one sorted
pair list whose pairs are a permutation of the pre-sort pairs (the
bijection between post-sort and pre-sort indices) — and an absent node
or edge sequence is treated as both empty, yielding two empty lists. -/
theorem c2_traversal_pairing (gm : GraphManager) (part kind key spec : String)
    (lP oP : Option String) (nd : EntityMap)
    (nodes? edges? : Option (List EntityMap)) (pairs : List TravPair)
    (hfp : gm.fetchNodePart part key kind [NodeKey, NodeKind] = Except.ok (some nd))
    (htr : gm.traverseMulti part key kind spec true = Except.ok (nodes?, edges?))
    (hbuild : buildTraversalData nodes? edges? = some pairs) :
    HandleGET gm [part, ("n"), kind, key, spec] lP oP =
      GetResult.okTraversal ((travSort pairs).map Prod.fst)
        ((travSort pairs).map Prod.snd)
    ∧ List.Perm (travSort pairs) pairs
    ∧ ((nodes? = none ∨ edges? = none) →
        HandleGET gm [part, ("n"), kind, key, spec] lP oP =
          GetResult.okTraversal [] []) := by
  have hmain : HandleGET gm [part, ("n"), kind, key, spec] lP oP =
      GetResult.okTraversal ((travSort pairs).map Prod.fst)
        ((travSort pairs).map Prod.snd) := by
    rw [handleGET_five]
    simp [handleTraversal, hfp, htr, hbuild]
  refine ⟨hmain, travSort_perm pairs, ?_⟩
  intro habs
  have hp : pairs = [] := by
    rcases habs with h | h
    · subst h
      simp [buildTraversalData] at hbuild
      exact hbuild
    · subst h
      cases nodes? <;> simp [buildTraversalData] at hbuild <;> exact hbuild
  rw [hp] at hmain
  simpa using hmain

/-- Witness for C2 at `gmA`. -/
theorem c2_traversal_pairing_witness :
    gmA.traverseMulti ("p") ("key1") ("k") ("spec") true =
      Except.ok (some [[(NodeKey, ("b"))], [(NodeKey, ("a"))]],
        some [[(NodeKey, ("eb"))], [(NodeKey, ("ea"))]])
    ∧ buildTraversalData (some [[(NodeKey, ("b"))], [(NodeKey, ("a"))]])
        (some [[(NodeKey, ("eb"))], [(NodeKey, ("ea"))]]) = some pairsA
    ∧ List.Perm (travSort pairsA) pairsA := by
  refine ⟨rfl, rfl, ?_⟩
  exact (c2_traversal_pairing gmA ("p") ("k") ("key1") ("spec") none none
    [(NodeKey, ("x"))] (some [[(NodeKey, ("b"))], [(NodeKey, ("a"))]])
    (some [[(NodeKey, ("eb"))], [(NodeKey, ("ea"))]]) pairsA rfl rfl rfl).2.1

/-- C5: the traversal sort orders the paired sequences into ascending
lexicographic order of the string form of each node's key, and it is
stable — for every key value, the subsequence of pairs carrying that key
is unchanged, so equal-key nodes (and their paired edges) retain their
pre-sort relative order. -/
theorem c5_sort_stable_ascending (l : List TravPair) :
    List.Sorted travLe (travSort l)
    ∧ ∀ k : String,
        (travSort l).filter (fun p => decide (pairKey p = k)) =
          l.filter (fun p => decide (pairKey p = k)) :=
  ⟨travSort_sorted l, fun k => travSort_filter k l⟩

/-- C1: for every PUT/POST/DELETE batch request (any strategy pair,
transaction and commit), once the path shape is valid and the body
decodes: (a) when the threaded strategy applications all succeed, the
trace is one invocation per decoded item in input order, all node items
before any edge item, followed by the commit call, whose success yields
the plain success result and whose error yields the distinct
server-error class; (b) when the node strategy first fails at item k,
handling stops at that item: the response is a client error carrying
that item's message, the trace is exactly the node invocations up to and
including item k (no edge invocations), and commit is never called;
(c) likewise when the edge strategy first fails at edge item k after all
node items succeeded; (d) conversely a commit call appears in the trace
only if every node and edge item succeeded. -/
theorem c1_batch_fail_fast {T : Type} (newTrans : T)
    (commit : T → Except String Unit)
    (fNode fEdge : T → String → EntityMap → Except String T)
    (resources : List String) (body : Body) (n? e? : Option (List EntityMap))
    (hres : checkResources 1 2 resources = true)
    (hdec : decodeFor resources body = Except.ok (n?, e?)) :
    (∀ t1 t2,
      applyItems fNode (resources.getD 0 ("")) newTrans (n?.getD []) = Except.ok t1 →
      applyItems fEdge (resources.getD 0 ("")) t1 (e?.getD []) = Except.ok t2 →
      (handleGraphRequest newTrans commit fNode fEdge resources body).2 =
        allMutCalls T n? e? ++ [MutEvent.commitCall t2] ∧
      (commit t2 = Except.ok () →
        (handleGraphRequest newTrans commit fNode fEdge resources body).1 =
          MutResult.ok) ∧
      (∀ msg, commit t2 = Except.error msg →
        (handleGraphRequest newTrans commit fNode fEdge resources body).1 =
          MutResult.serverError msg))
    ∧ (∀ k tk item msg,
      applyItems fNode (resources.getD 0 ("")) newTrans ((n?.getD []).take k) =
        Except.ok tk →
      (n?.getD [])[k]? = some item →
      fNode tk (resources.getD 0 ("")) item = Except.error msg →
      handleGraphRequest newTrans commit fNode fEdge resources body =
        (MutResult.badRequest msg,
          ((n?.getD []).take (k + 1)).map MutEvent.nodeCall) ∧
      ∀ t, MutEvent.commitCall t ∉
        (handleGraphRequest newTrans commit fNode fEdge resources body).2)
    ∧ (∀ t1 k uk item msg,
      applyItems fNode (resources.getD 0 ("")) newTrans (n?.getD []) = Except.ok t1 →
      applyItems fEdge (resources.getD 0 ("")) t1 ((e?.getD []).take k) =
        Except.ok uk →
      (e?.getD [])[k]? = some item →
      fEdge uk (resources.getD 0 ("")) item = Except.error msg →
      handleGraphRequest newTrans commit fNode fEdge resources body =
        (MutResult.badRequest msg,
          (n?.getD []).map MutEvent.nodeCall ++
            ((e?.getD []).take (k + 1)).map MutEvent.edgeCall) ∧
      ∀ t, MutEvent.commitCall t ∉
        (handleGraphRequest newTrans commit fNode fEdge resources body).2)
    ∧ (∀ t, MutEvent.commitCall t ∈
        (handleGraphRequest newTrans commit fNode fEdge resources body).2 →
      ∃ t1, applyItems fNode (resources.getD 0 ("")) newTrans (n?.getD []) =
          Except.ok t1 ∧
        applyItems fEdge (resources.getD 0 ("")) t1 (e?.getD []) = Except.ok t ∧
        (handleGraphRequest newTrans commit fNode fEdge resources body).2 =
          allMutCalls T n? e? ++ [MutEvent.commitCall t]) := by
  have hgetD : resources.getD 0 ("") = resources[0]?.getD ("") :=
    List.getD_eq_getElem?_getD resources 0 ("")
  refine ⟨?_, ?_, ?_, ?_⟩
  · intro t1 t2 hn he
    rw [hgetD] at hn he
    have h1 := runItems_of_apply_ok fNode MutEvent.nodeCall (resources[0]?.getD (""))
      (n?.getD []) newTrans t1 hn
    have h2 := runItems_of_apply_ok fEdge MutEvent.edgeCall (resources[0]?.getD (""))
      (e?.getD []) t1 t2 he
    refine ⟨?_, ?_, ?_⟩
    · cases hc : commit t2 with
      | ok u =>
        cases u
        simp [handleGraphRequest, hres, hdec, h1, h2, hc, allMutCalls]
      | error m =>
        simp [handleGraphRequest, hres, hdec, h1, h2, hc, allMutCalls]
    · intro hc
      simp [handleGraphRequest, hres, hdec, h1, h2, hc]
    · intro msg hc
      simp [handleGraphRequest, hres, hdec, h1, h2, hc]
  · intro k tk item msg hpre hitem hfail
    rw [hgetD] at hpre hfail
    have h1 := runItems_of_apply_fail fNode MutEvent.nodeCall (resources[0]?.getD (""))
      (n?.getD []) k newTrans tk item msg hpre hitem hfail
    have hfull : handleGraphRequest newTrans commit fNode fEdge resources body =
        (MutResult.badRequest msg,
          ((n?.getD []).take (k + 1)).map MutEvent.nodeCall) := by
      simp [handleGraphRequest, hres, hdec, h1]
    refine ⟨hfull, ?_⟩
    rw [hfull]
    intro t ht
    rcases List.mem_map.mp ht with ⟨a, _, ha⟩
    exact MutEvent.noConfusion ha
  · intro t1 k uk item msg hn hpre hitem hfail
    rw [hgetD] at hn hpre hfail
    have h1 := runItems_of_apply_ok fNode MutEvent.nodeCall (resources[0]?.getD (""))
      (n?.getD []) newTrans t1 hn
    have h2 := runItems_of_apply_fail fEdge MutEvent.edgeCall (resources[0]?.getD (""))
      (e?.getD []) k t1 uk item msg hpre hitem hfail
    have hfull : handleGraphRequest newTrans commit fNode fEdge resources body =
        (MutResult.badRequest msg,
          (n?.getD []).map MutEvent.nodeCall ++
            ((e?.getD []).take (k + 1)).map MutEvent.edgeCall) := by
      simp [handleGraphRequest, hres, hdec, h1, h2]
    refine ⟨hfull, ?_⟩
    rw [hfull]
    intro t ht
    rcases List.mem_append.mp ht with hta | htb
    · rcases List.mem_map.mp hta with ⟨a, _, ha⟩
      exact MutEvent.noConfusion ha
    · rcases List.mem_map.mp htb with ⟨a, _, ha⟩
      exact MutEvent.noConfusion ha
  · intro t ht
    rcases runItems_spec fNode MutEvent.nodeCall (resources[0]?.getD ("")) (n?.getD [])
        newTrans with ⟨t1, h1⟩ | ⟨msg, n, hn1, hn2, h1⟩
    · rcases runItems_spec fEdge MutEvent.edgeCall (resources[0]?.getD ("")) (e?.getD [])
          t1 with ⟨t2, h2⟩ | ⟨msg, n, hn1, hn2, h2⟩
      · have htr : (handleGraphRequest newTrans commit fNode fEdge resources body).2 =
            allMutCalls T n? e? ++ [MutEvent.commitCall t2] := by
          cases hc : commit t2 with
          | ok u =>
            cases u
            simp [handleGraphRequest, hres, hdec, h1, h2, hc, allMutCalls]
          | error m =>
            simp [handleGraphRequest, hres, hdec, h1, h2, hc, allMutCalls]
        rw [htr] at ht
        have ht2 : t = t2 := by
          rcases List.mem_append.mp ht with hta | htb
          · exfalso
            simp only [allMutCalls] at hta
            rcases List.mem_append.mp hta with h' | h'
            · rcases List.mem_map.mp h' with ⟨a, _, ha⟩
              exact MutEvent.noConfusion ha
            · rcases List.mem_map.mp h' with ⟨a, _, ha⟩
              exact MutEvent.noConfusion ha
          · exact MutEvent.commitCall.inj (List.mem_singleton.mp htb)
        subst ht2
        refine ⟨t1, ?_, ?_, htr⟩
        · have hfst := runItems_fst fNode MutEvent.nodeCall (resources[0]?.getD (""))
            (n?.getD []) newTrans
          rw [h1] at hfst
          rw [hgetD]
          exact hfst.symm
        · have hfst := runItems_fst fEdge MutEvent.edgeCall (resources[0]?.getD (""))
            (e?.getD []) t1
          rw [h2] at hfst
          rw [hgetD]
          exact hfst.symm
      · exfalso
        have htr : (handleGraphRequest newTrans commit fNode fEdge resources body).2 =
            (n?.getD []).map MutEvent.nodeCall ++
              ((e?.getD []).take n).map MutEvent.edgeCall := by
          simp [handleGraphRequest, hres, hdec, h1, h2]
        rw [htr] at ht
        rcases List.mem_append.mp ht with hta | htb
        · rcases List.mem_map.mp hta with ⟨a, _, ha⟩
          exact MutEvent.noConfusion ha
        · rcases List.mem_map.mp htb with ⟨a, _, ha⟩
          exact MutEvent.noConfusion ha
    · exfalso
      have htr : (handleGraphRequest newTrans commit fNode fEdge resources body).2 =
          ((n?.getD []).take n).map MutEvent.nodeCall := by
        simp [handleGraphRequest, hres, hdec, h1]
      rw [htr] at ht
      rcases List.mem_map.mp ht with ⟨a, _, ha⟩
      exact MutEvent.noConfusion ha

/-- Witness for C1: a strategy that rejects the second node item makes
the handler stop at that item with its client error, having invoked the
node strategy on exactly the first two items and nothing else, and
commit is never called. -/
theorem c1_batch_fail_fast_witness :
    checkResources 1 2 [("p")] = true ∧
    decodeFor [("p")] bodyFail =
      Except.ok (some [[(NodeKey, ("1"))], []], some [[(NodeKey, ("9"))]]) ∧
    handleGraphRequest ([] : GraphTrans) transCommit failOnEmpty transStoreEdge
        [("p")] bodyFail =
      (MutResult.badRequest ("bad item"),
        [MutEvent.nodeCall [(NodeKey, ("1"))], MutEvent.nodeCall []]) ∧
    (∀ t, MutEvent.commitCall t ∉
      (handleGraphRequest ([] : GraphTrans) transCommit failOnEmpty transStoreEdge
        [("p")] bodyFail).2) := by
  have hb := (c1_batch_fail_fast ([] : GraphTrans) transCommit failOnEmpty
    transStoreEdge [("p")] bodyFail (some [[(NodeKey, ("1"))], []])
    (some [[(NodeKey, ("9"))]]) rfl rfl).2.1
    1 [TransOp.storeNode ("p") [(NodeKey, ("1"))]] [] ("bad item") rfl rfl rfl
  exact ⟨rfl, rfl, hb.1, hb.2⟩

/-- C6: the verb-to-strategy mapping — PUT stages a node update (merge)
per node and an edge store per edge; POST stages a store for nodes and
edges; DELETE stages removals identified only by key and kind for both;
and all three verbs are the same shared batch routine instantiated with
their strategy pair. -/
theorem c6_verb_strategy_mapping (part : String) (ns es : List EntityMap) :
    HandlePUT [part] (Body.graphObj (some ns) (some es)) =
      (MutResult.ok,
        ns.map MutEvent.nodeCall ++ es.map MutEvent.edgeCall ++
          [MutEvent.commitCall
            (ns.map (TransOp.updateNode part) ++ es.map (TransOp.storeEdge part))])
    ∧ HandlePOST [part] (Body.graphObj (some ns) (some es)) =
      (MutResult.ok,
        ns.map MutEvent.nodeCall ++ es.map MutEvent.edgeCall ++
          [MutEvent.commitCall
            (ns.map (TransOp.storeNode part) ++ es.map (TransOp.storeEdge part))])
    ∧ HandleDELETE [part] (Body.graphObj (some ns) (some es)) =
      (MutResult.ok,
        ns.map MutEvent.nodeCall ++ es.map MutEvent.edgeCall ++
          [MutEvent.commitCall
            (ns.map (fun nd =>
              TransOp.removeNode part (attrStr nd NodeKey) (attrStr nd NodeKind)) ++
             es.map (fun ed =>
              TransOp.removeEdge part (attrStr ed NodeKey) (attrStr ed NodeKind)))])
    ∧ (∀ resources body, HandlePUT resources body =
        handleGraphRequest [] transCommit transUpdateNode transStoreEdge resources body)
    ∧ (∀ resources body, HandlePOST resources body =
        handleGraphRequest [] transCommit transStoreNode transStoreEdge resources body)
    ∧ (∀ resources body, HandleDELETE resources body =
        handleGraphRequest [] transCommit transRemoveNode transRemoveEdge resources body) := by
  have hU := runItems_append (fun p m => TransOp.updateNode p m) transUpdateNode
    (fun _ _ _ => rfl)
  have hSN := runItems_append (fun p m => TransOp.storeNode p m) transStoreNode
    (fun _ _ _ => rfl)
  have hSE := runItems_append (fun p m => TransOp.storeEdge p m) transStoreEdge
    (fun _ _ _ => rfl)
  have hRN := runItems_append
    (fun p m => TransOp.removeNode p (attrStr m NodeKey) (attrStr m NodeKind))
    transRemoveNode (fun _ _ _ => rfl)
  have hRE := runItems_append
    (fun p m => TransOp.removeEdge p (attrStr m NodeKey) (attrStr m NodeKind))
    transRemoveEdge (fun _ _ _ => rfl)
  refine ⟨?_, ?_, ?_, fun r b => rfl, fun r b => rfl, fun r b => rfl⟩
  · simp [HandlePUT, handleGraphRequest, checkResources, decodeFor, decodeGraphBody,
      transCommit, hU, hSE]
  · simp [HandlePOST, handleGraphRequest, checkResources, decodeFor, decodeGraphBody,
      transCommit, hSN, hSE]
  · simp [HandleDELETE, handleGraphRequest, checkResources, decodeFor, decodeGraphBody,
      transCommit, hRN, hRE]

end EliasV1
